import Mathlib

/-!
Shallow embedding of the trading212-mcp-server local-cache core:
the rate limiter (src/utils/rate_limiter.py), the retry policy
(src/utils/retry.py) and the historical data store / sync engine
(src/utils/data_store.py).  Times are modelled as integers (epoch
seconds, absolute instants, so timezone-aware Python datetime
comparison is plain integer comparison); money amounts as rationals.
-/

namespace Trading212

/-! ### Rate limiter (src/utils/rate_limiter.py) -/

/-- Rate limit state for a specific endpoint (`EndpointLimit` dataclass). -/
structure EndpointLimit where
  limit : Int
  remaining : Int
  reset_time : Int
deriving Repr, DecidableEq

/-- The `RateLimiter._endpoints` dict, as an association list. -/
abbrev RateLimiterState := List (String × EndpointLimit)

/-- Dict lookup `self._endpoints.get(endpoint)`. -/
def lookupEndpoint (rl : RateLimiterState) (endpoint : String) : Option EndpointLimit :=
  (rl.find? (fun p => p.1 == endpoint)).map (fun p => p.2)

/-- `RateLimiter.can_make_request`: true if the endpoint is untracked,
true if the reset time has passed, else `remaining > 0`. -/
def can_make_request (rl : RateLimiterState) (endpoint : String) (now : Int) : Bool :=
  match lookupEndpoint rl endpoint with
  | none => true
  | some limit_info =>
    if limit_info.reset_time ≤ now then true
    else decide (0 < limit_info.remaining)

/-- `RateLimiter.get_wait_time`: 0 if untracked, 0 if requests remain,
0 if the reset time has passed, else `reset_time - now`. -/
def get_wait_time (rl : RateLimiterState) (endpoint : String) (now : Int) : Int :=
  match lookupEndpoint rl endpoint with
  | none => 0
  | some limit_info =>
    if 0 < limit_info.remaining then 0
    else if limit_info.reset_time ≤ now then 0
    else limit_info.reset_time - now

/-! ### Freshness gate (`HistoricalDataStore.is_cache_fresh`) -/

/-- One row of `sync_metadata` as read by `_get_sync_metadata`
(`last_sync` is NULL-able, stored as a naive timestamp). -/
structure SyncMetadata where
  last_sync : Option Int
  record_count : Nat
deriving Repr, DecidableEq

/-- `HistoricalDataStore.is_cache_fresh`.  `cfgFreshnessMinutes` is the
`CACHE_FRESHNESS_MINUTES` config value (default 60); `metadata` is what
`_get_sync_metadata table` returns; `now` is `datetime.now()` in epoch
seconds; a `timedelta` of m minutes is `60 * m` seconds. -/
def is_cache_fresh (enabled : Bool) (cfgFreshnessMinutes : Int)
    (metadata : Option SyncMetadata) (now : Int)
    (max_age_minutes : Option Int) : Bool :=
  if !enabled then false
  else
    let freshness_minutes := max_age_minutes.getD cfgFreshnessMinutes
    if freshness_minutes = -1 then true
    else if freshness_minutes = 0 then false
    else
      match metadata with
      | none => false
      | some md =>
        match md.last_sync with
        | none => false
        | some last_sync => decide (now - last_sync < 60 * freshness_minutes)

/-! ### Retry policy (src/utils/retry.py `with_retry`) -/

/-- `RETRYABLE_STATUS_CODES = {408, 429, 500, 502, 503, 504}`. -/
def RETRYABLE_STATUS_CODES : List Nat := [408, 429, 500, 502, 503, 504]

/-- One invocation of the wrapped function either returns a value,
raises `httpx.HTTPStatusError` with a status code, or raises a transport
error (`httpx.ConnectError` / `httpx.TimeoutException`). -/
inductive CallOutcome (α : Type) where
  | success (v : α)
  | httpStatusError (status : Nat)
  | connectError
  | timeoutError
deriving Repr, DecidableEq

/-- Result of the `with_retry` wrapper: the returned value or the
re-raised exception, together with how many times the wrapped function
was invoked.  `noScript` marks running past the scripted outcomes
(never reached in any theorem below). -/
inductive RetryResult (α : Type) where
  | ok (v : α) (calls : Nat)
  | raised (e : CallOutcome α) (calls : Nat)
  | noScript
deriving Repr, DecidableEq

/-- The `for attempt in range(max_retries + 1)` loop of `with_retry.wrapper`,
with the wrapped function's behaviour scripted as the list of outcomes of
its successive invocations.  `attempt` is the 0-indexed attempt number. -/
def withRetryGo (max_retries : Nat) (retryable : List Nat) :
    Nat → List (CallOutcome α) → RetryResult α
  | _, [] => .noScript
  | attempt, outcome :: rest =>
    match outcome with
    | .success v => .ok v (attempt + 1)
    | .httpStatusError status_code =>
      if status_code ∉ retryable then .raised (.httpStatusError status_code) (attempt + 1)
      else if attempt < max_retries then withRetryGo max_retries retryable (attempt + 1) rest
      else .raised (.httpStatusError status_code) (attempt + 1)
    | .connectError =>
      if attempt < max_retries then withRetryGo max_retries retryable (attempt + 1) rest
      else .raised .connectError (attempt + 1)
    | .timeoutError =>
      if attempt < max_retries then withRetryGo max_retries retryable (attempt + 1) rest
      else .raised .timeoutError (attempt + 1)

/-- `with_retry(max_retries)` applied to a function whose successive
invocations behave as `outcomes`, with the default retryable set. -/
def with_retry (max_retries : Nat) (outcomes : List (CallOutcome α)) : RetryResult α :=
  withRetryGo max_retries RETRYABLE_STATUS_CODES 0 outcomes

/-! ### Data model (src/models.py, as accessed by data_store.py)

`data_store.py` accesses historical orders through a nested structure:
`order.id`, `order.order.{id,ticker,type,status,initiatedFrom,quantity,
filledQuantity,limitPrice,stopPrice,createdAt}` and
`order.fill.{id,price,tradingMethod,filledAt,walletImpact}`.
Enumerations are modelled as their string values; timestamps as epoch
seconds; floats as rationals; a serialized tax entry as a string. -/

/-- `HistoricalOrderWalletImpact` as accessed by `_upsert_orders`. -/
structure HistoricalOrderWalletImpact where
  netValue : Option Rat
  realisedProfitLoss : Option Rat
  taxes : Option (List String)
deriving Repr, DecidableEq

/-- `HistoricalOrderDetails` (the nested `order` field). -/
structure HistoricalOrderDetails where
  id : Option Int
  ticker : Option String
  type : Option String
  status : Option String
  initiatedFrom : Option String
  quantity : Option Rat
  filledQuantity : Option Rat
  limitPrice : Option Rat
  stopPrice : Option Rat
  createdAt : Option Int
deriving Repr, DecidableEq

/-- `HistoricalOrderFill` (the nested `fill` field). -/
structure HistoricalOrderFill where
  id : Option Int
  price : Option Rat
  tradingMethod : Option String
  filledAt : Option Int
  walletImpact : Option HistoricalOrderWalletImpact
deriving Repr, DecidableEq

/-- `HistoricalOrder` with the nested `order` / `fill` structure. -/
structure HistoricalOrder where
  id : Option Int
  order : Option HistoricalOrderDetails
  fill : Option HistoricalOrderFill
deriving Repr, DecidableEq

/-- `IMMUTABLE_ORDER_STATUSES = {"FILLED", "CANCELLED", "REJECTED"}`. -/
def IMMUTABLE_ORDER_STATUSES : List String := ["FILLED", "CANCELLED", "REJECTED"]

/-- `existing_status in IMMUTABLE_ORDER_STATUSES` on the NULL-able
`status` column (a NULL status is not in the set). -/
def statusIsImmutable : Option String → Bool
  | some s => IMMUTABLE_ORDER_STATUSES.contains s
  | none => false

/-! ### The `orders` table -/

/-- One row of the `orders` table: exactly the columns written by the
`INSERT OR REPLACE` in `_upsert_orders`.  `raw_json` holds the order the
row was serialized from (`model_dump_json` is deterministic and
injective, so the pseudo-column stores the order itself). -/
structure OrderRow where
  id : Option Int
  account_id : Int
  ticker : Option String
  type : Option String
  status : Option String
  executor : Option String
  ordered_quantity : Option Rat
  filled_quantity : Option Rat
  limit_price : Option Rat
  stop_price : Option Rat
  fill_price : Option Rat
  fill_cost : Option Rat
  fill_result : Option Rat
  fill_id : Option Int
  fill_type : Option String
  filled_value : Option Rat
  ordered_value : Option Rat
  parent_order : Option Int
  time_validity : Option String
  date_created : Option Int
  date_executed : Option Int
  date_modified : Option Int
  taxes_json : Option (List String)
  raw_json : HistoricalOrder
deriving Repr, DecidableEq

/-- The VALUES tuple of the `INSERT OR REPLACE INTO orders` statement,
value for value.  `taxes_json` is set only when
`order.fill and order.fill.walletImpact and order.fill.walletImpact.taxes`
is truthy (an empty tax list is falsy in Python). -/
def orderRowValues (account_id : Int) (o : HistoricalOrder) : OrderRow :=
  { id := o.order.bind (fun d => d.id)
    account_id := account_id
    ticker := o.order.bind (fun d => d.ticker)
    type := o.order.bind (fun d => d.type)
    status := o.order.bind (fun d => d.status)
    executor := o.order.bind (fun d => d.initiatedFrom)
    ordered_quantity := o.order.bind (fun d => d.quantity)
    filled_quantity := o.order.bind (fun d => d.filledQuantity)
    limit_price := o.order.bind (fun d => d.limitPrice)
    stop_price := o.order.bind (fun d => d.stopPrice)
    fill_price := o.fill.bind (fun f => f.price)
    fill_cost := o.fill.bind (fun f => f.walletImpact.bind (fun w => w.netValue))
    fill_result := o.fill.bind (fun f => f.walletImpact.bind (fun w => w.realisedProfitLoss))
    fill_id := o.fill.bind (fun f => f.id)
    fill_type := o.fill.bind (fun f => f.tradingMethod)
    filled_value := none
    ordered_value := none
    parent_order := none
    time_validity := none
    date_created := o.order.bind (fun d => d.createdAt)
    date_executed := o.fill.bind (fun f => f.filledAt)
    date_modified := none
    taxes_json :=
      match o.fill.bind (fun f => f.walletImpact.bind (fun w => w.taxes)) with
      | some ts => if ts.isEmpty then none else some ts
      | none => none
    raw_json := o }

/-- Modelled from the spec: schema.sql is not among the sources; per the
spec's persisted schema, `id` is the primary key of `orders`, so
`INSERT OR REPLACE` replaces any row with the same `id`. -/
def insertOrReplaceOrder (store : List OrderRow) (row : OrderRow) : List OrderRow :=
  (store.filter (fun r => r.id != row.id)) ++ [row]

/-- `SELECT status FROM orders WHERE id = ? AND account_id = ?`
(returns the status column of the matching row, if any). -/
def selectOrderStatus (store : List OrderRow) (oid : Int) (account_id : Int) :
    Option (Option String) :=
  (store.find? (fun r => r.id == some oid && r.account_id == account_id)).map
    (fun r => r.status)

/-- One iteration of the `for order in orders` loop of `_upsert_orders`:
skip id-less orders; skip (unchanged) when the existing row's status is
immutable; otherwise `INSERT OR REPLACE` and count one insert. -/
def upsertOrdersStep (account_id : Int) (acc : List OrderRow × Nat)
    (o : HistoricalOrder) : List OrderRow × Nat :=
  match o.id with
  | none => acc
  | some oid =>
    match selectOrderStatus acc.1 oid account_id with
    | some existing_status =>
      if statusIsImmutable existing_status then acc
      else (insertOrReplaceOrder acc.1 (orderRowValues account_id o), acc.2 + 1)
    | none => (insertOrReplaceOrder acc.1 (orderRowValues account_id o), acc.2 + 1)

/-- `_upsert_orders`: returns the updated table and the `inserted` count. -/
def upsert_orders (account_id : Int) (store : List OrderRow)
    (orders : List HistoricalOrder) : List OrderRow × Nat :=
  orders.foldl (upsertOrdersStep account_id) (store, 0)

/-- Rows of the `orders` table for one account
(`len(self.get_orders())`; `raw_json` always parses in the model). -/
def countOrders (store : List OrderRow) (account_id : Int) : Nat :=
  (store.filter (fun r => r.account_id == account_id)).length

/-! ### Sync results and the orders pagination loop (`sync_orders`) -/

/-- `SyncResult` dataclass (`last_sync` as epoch seconds). -/
structure SyncResult where
  table : String
  records_fetched : Nat
  records_added : Nat
  total_records : Nat
  last_sync : Int
  error : Option String
deriving Repr, DecidableEq

/-- Outcome of a sync call: the updated table, the returned
`SyncResult`, and (instrumentation, mirroring the mock `call_count` of
the tests) how many times the upstream fetch was invoked. -/
structure SyncOutcome (Row : Type) where
  store : List Row
  result : SyncResult
  fetchCalls : Nat
deriving Repr, DecidableEq

/-- One upstream orders page.  `nextPagePath` is modelled after URL
parsing: `none` = response had no `nextPagePath`; `some none` = a path
whose query string has no `cursor` parameter; `some (some c)` = a path
carrying cursor `c`. -/
structure OrderPage where
  items : List HistoricalOrder
  nextPagePath : Option (Option Int)
deriving Repr, DecidableEq

/-- The `while True` fetch loop of `sync_orders`.  Each upstream call is
scripted as `Except`: `.error e` is a fetch that raises `e`.  Returns
(`all_orders`, `pagination_error`, number of fetch calls).  Running past
the scripted responses is the mock's `StopIteration`, which the
`except Exception` clause also converts into a pagination error. -/
def syncOrdersFetchLoop :
    List (Except String OrderPage) → List HistoricalOrder × Option String × Nat
  | [] => ([], some "Pagination stopped: StopIteration", 1)
  | .error e :: _ => ([], some ("Pagination stopped: " ++ e), 1)
  | .ok response :: rest =>
    if response.items.isEmpty then ([], none, 1)
    else
      match response.nextPagePath with
      | none => (response.items, none, 1)
      | some none => (response.items, none, 1)
      | some (some _) =>
        let r := syncOrdersFetchLoop rest
        (response.items ++ r.1, r.2.1, r.2.2 + 1)

/-- `HistoricalDataStore.sync_orders`; `now` is `datetime.now()`. -/
def sync_orders (enabled : Bool) (account_id : Int) (store : List OrderRow)
    (now : Int) (responses : List (Except String OrderPage)) : SyncOutcome OrderRow :=
  if !enabled then
    { store := store
      result := { table := "orders", records_fetched := 0, records_added := 0,
                  total_records := 0, last_sync := now,
                  error := some "Cache is disabled" }
      fetchCalls := 0 }
  else
    let fetched := syncOrdersFetchLoop responses
    let all_orders := fetched.1
    let upserted := upsert_orders account_id store all_orders
    { store := upserted.1
      result := { table := "orders", records_fetched := all_orders.length,
                  records_added := upserted.2,
                  total_records := countOrders upserted.1 account_id,
                  last_sync := now, error := fetched.2.1 }
      fetchCalls := fetched.2.2 }

/-! ### Dividends (`_upsert_dividends`, `sync_dividends`) -/

/-- `HistoryDividendItem` as accessed by the data store. -/
structure HistoryDividendItem where
  reference : Option String
  ticker : Option String
  amount : Option Rat
  amountInEuro : Option Rat
  grossAmountPerShare : Option Rat
  quantity : Option Rat
  type : Option String
  paidOn : Option Int
deriving Repr, DecidableEq

/-- `if not dividend.reference` — Python truthiness: `None` and the
empty string are both falsy. -/
def refTruthy : Option String → Bool
  | some s => !s.isEmpty
  | none => false

/-- One row of the `dividends` table, with the columns written by
`_upsert_dividends` (`raw_json` as for orders). -/
structure DividendRow where
  reference : String
  account_id : Int
  ticker : Option String
  amount : Option Rat
  amount_eur : Option Rat
  gross_per_share : Option Rat
  quantity : Option Rat
  type : Option String
  paid_on : Option Int
  raw_json : HistoryDividendItem
deriving Repr, DecidableEq

/-- The VALUES tuple of the `INSERT OR REPLACE INTO dividends`. -/
def dividendRowValues (account_id : Int) (reference : String)
    (d : HistoryDividendItem) : DividendRow :=
  { reference := reference
    account_id := account_id
    ticker := d.ticker
    amount := d.amount
    amount_eur := d.amountInEuro
    gross_per_share := d.grossAmountPerShare
    quantity := d.quantity
    type := d.type
    paid_on := d.paidOn
    raw_json := d }

/-- Modelled from the spec: schema.sql is not among the sources; per the
spec's persisted schema, `reference` is the primary key of `dividends`. -/
def insertOrReplaceDividend (store : List DividendRow) (row : DividendRow) :
    List DividendRow :=
  (store.filter (fun r => r.reference != row.reference)) ++ [row]

/-- One iteration of the `for dividend in dividends` loop of
`_upsert_dividends`: skip reference-less items, else upsert and count. -/
def upsertDividendsStep (account_id : Int) (acc : List DividendRow × Nat)
    (d : HistoryDividendItem) : List DividendRow × Nat :=
  match d.reference with
  | none => acc
  | some r =>
    if r.isEmpty then acc
    else (insertOrReplaceDividend acc.1 (dividendRowValues account_id r d), acc.2 + 1)

/-- `_upsert_dividends`. -/
def upsert_dividends (account_id : Int) (store : List DividendRow)
    (dividends : List HistoryDividendItem) : List DividendRow × Nat :=
  dividends.foldl (upsertDividendsStep account_id) (store, 0)

/-- Rows of the `dividends` table for one account
(`len(self.get_dividends())`). -/
def countDividends (store : List DividendRow) (account_id : Int) : Nat :=
  (store.filter (fun r => r.account_id == account_id)).length

/-- `_get_newest_record_date("dividends", "paid_on")` restricted to its
semantics on the model table: `MAX(paid_on)` over this account's rows
(SQL `MAX` ignores NULLs; an empty result is `None`). -/
def newestDividendPaidOn (store : List DividendRow) (account_id : Int) : Option Int :=
  ((store.filter (fun r => r.account_id == account_id)).filterMap
    (fun r => r.paid_on)).max?

/-- One upstream dividends page (`nextPagePath` as for orders). -/
structure DividendPage where
  items : List HistoryDividendItem
  nextPagePath : Option (Option Int)
deriving Repr, DecidableEq

/-- `d.paidOn and d.paidOn >= cutoff_dt` — the client-side incremental
filter, a timezone-aware datetime comparison on absolute instants. -/
def dividendAccepted (cutoff_dt : Int) (d : HistoryDividendItem) : Bool :=
  match d.paidOn with
  | some p => decide (cutoff_dt ≤ p)
  | none => false

/-- The `while True` fetch loop of `sync_dividends`.  Returns
(`some all_dividends` | `none` if a fetch raised, fetch-call count).
Running past the scripted responses models a raising fetch; the raise
is handled by `sync_dividends`' surrounding `try`. -/
def syncDividendsFetchLoop (cutoff_dt : Option Int) :
    List DividendPage → Option (List HistoryDividendItem) × Nat
  | [] => (none, 1)
  | response :: rest =>
    if response.items.isEmpty then (some [], 1)
    else
      match cutoff_dt with
      | some c =>
        let new_items := response.items.filter (dividendAccepted c)
        if new_items.length < response.items.length then (some new_items, 1)
        else
          match response.nextPagePath with
          | none => (some new_items, 1)
          | some none => (some new_items, 1)
          | some (some _) =>
            match syncDividendsFetchLoop (some c) rest with
            | (none, n) => (none, n + 1)
            | (some more, n) => (some (new_items ++ more), n + 1)
      | none =>
        match response.nextPagePath with
        | none => (some response.items, 1)
        | some none => (some response.items, 1)
        | some (some _) =>
          match syncDividendsFetchLoop none rest with
          | (none, n) => (none, n + 1)
          | (some more, n) => (some (response.items ++ more), n + 1)

/-- `HistoricalDataStore.sync_dividends`.  A raise anywhere in the body
is caught by the `except` clause, which returns an error `SyncResult`
with zero counts and leaves the table unchanged. -/
def sync_dividends (enabled : Bool) (account_id : Int) (store : List DividendRow)
    (now : Int) (incremental : Bool) (responses : List DividendPage) :
    SyncOutcome DividendRow :=
  if !enabled then
    { store := store
      result := { table := "dividends", records_fetched := 0, records_added := 0,
                  total_records := 0, last_sync := now,
                  error := some "Cache is disabled" }
      fetchCalls := 0 }
  else
    let cutoff_dt := if incremental then newestDividendPaidOn store account_id else none
    match syncDividendsFetchLoop cutoff_dt responses with
    | (none, n) =>
      { store := store
        result := { table := "dividends", records_fetched := 0, records_added := 0,
                    total_records := countDividends store account_id,
                    last_sync := now, error := some "fetch raised" }
        fetchCalls := n }
    | (some all_dividends, n) =>
      let upserted := upsert_dividends account_id store all_dividends
      { store := upserted.1
        result := { table := "dividends", records_fetched := all_dividends.length,
                    records_added := upserted.2,
                    total_records := countDividends upserted.1 account_id,
                    last_sync := now, error := none }
        fetchCalls := n }

/-! ### Transactions (`_upsert_transactions`, `sync_transactions`) -/

/-- `HistoryTransactionItem` as accessed by the data store. -/
structure HistoryTransactionItem where
  reference : Option String
  type : Option String
  amount : Option Rat
  dateTime : Option Int
deriving Repr, DecidableEq

/-- One row of the `transactions` table. -/
structure TransactionRow where
  reference : String
  account_id : Int
  type : Option String
  amount : Option Rat
  datetime : Option Int
  raw_json : HistoryTransactionItem
deriving Repr, DecidableEq

/-- The VALUES tuple of the `INSERT OR REPLACE INTO transactions`. -/
def transactionRowValues (account_id : Int) (reference : String)
    (t : HistoryTransactionItem) : TransactionRow :=
  { reference := reference
    account_id := account_id
    type := t.type
    amount := t.amount
    datetime := t.dateTime
    raw_json := t }

/-- Modelled from the spec: schema.sql is not among the sources; per the
spec's persisted schema, `reference` is the primary key of `transactions`. -/
def insertOrReplaceTransaction (store : List TransactionRow) (row : TransactionRow) :
    List TransactionRow :=
  (store.filter (fun r => r.reference != row.reference)) ++ [row]

/-- One iteration of the `for transaction in transactions` loop of
`_upsert_transactions`. -/
def upsertTransactionsStep (account_id : Int) (acc : List TransactionRow × Nat)
    (t : HistoryTransactionItem) : List TransactionRow × Nat :=
  match t.reference with
  | none => acc
  | some r =>
    if r.isEmpty then acc
    else (insertOrReplaceTransaction acc.1 (transactionRowValues account_id r t), acc.2 + 1)

/-- `_upsert_transactions`. -/
def upsert_transactions (account_id : Int) (store : List TransactionRow)
    (transactions : List HistoryTransactionItem) : List TransactionRow × Nat :=
  transactions.foldl (upsertTransactionsStep account_id) (store, 0)

/-- Rows of the `transactions` table for one account
(`len(self.get_transactions())`). -/
def countTransactions (store : List TransactionRow) (account_id : Int) : Nat :=
  (store.filter (fun r => r.account_id == account_id)).length

/-- One upstream transactions page.  `nextPagePath` parses into an
optional `cursor` parameter and an optional `time` parameter; `none`
means the response carried no `nextPagePath` at all. -/
structure TransactionPage where
  items : List HistoryTransactionItem
  nextPagePath : Option (Option String × Option String)
deriving Repr, DecidableEq

/-- The `while True` fetch loop of `sync_transactions`: stop on an empty
page, on a missing `nextPagePath`, or on a parsed path without a
`cursor` parameter; otherwise carry cursor and time token to the next
call and continue.  (In the scripted-pages model the carried cursor and
`effective_time` are arguments of the next fetch and do not select which
page arrives, so they are not tracked.)  Returns as the dividends loop. -/
def syncTransactionsFetchLoop :
    List TransactionPage → Option (List HistoryTransactionItem) × Nat
  | [] => (none, 1)
  | response :: rest =>
    if response.items.isEmpty then (some [], 1)
    else
      match response.nextPagePath with
      | none => (some response.items, 1)
      | some params =>
        match params.1 with
        | none => (some response.items, 1)
        | some _ =>
          match syncTransactionsFetchLoop rest with
          | (none, n) => (none, n + 1)
          | (some more, n) => (some (response.items ++ more), n + 1)

/-- `HistoricalDataStore.sync_transactions` (body inside `try` as for
dividends). -/
def sync_transactions (enabled : Bool) (account_id : Int)
    (store : List TransactionRow) (now : Int)
    (responses : List TransactionPage) : SyncOutcome TransactionRow :=
  if !enabled then
    { store := store
      result := { table := "transactions", records_fetched := 0, records_added := 0,
                  total_records := 0, last_sync := now,
                  error := some "Cache is disabled" }
      fetchCalls := 0 }
  else
    match syncTransactionsFetchLoop responses with
    | (none, n) =>
      { store := store
        result := { table := "transactions", records_fetched := 0, records_added := 0,
                    total_records := countTransactions store account_id,
                    last_sync := now, error := some "fetch raised" }
        fetchCalls := n }
    | (some all_transactions, n) =>
      let upserted := upsert_transactions account_id store all_transactions
      { store := upserted.1
        result := { table := "transactions",
                    records_fetched := all_transactions.length,
                    records_added := upserted.2,
                    total_records := countTransactions upserted.1 account_id,
                    last_sync := now, error := none }
        fetchCalls := n }

/-! ### Table allow-list (`_get_newest_record_date`, `_get_data_coverage`)

Both functions validate the table and date-column names against the
whitelist and raise `ValueError` (the spec's PersistenceError) before
`self._get_connection()` is called.  They are instrumented with the list
of SQL statements actually executed, so "no storage access" is
`trace = []`.  The table contents are abstracted to this account's date
column (the only data the queries read). -/

/-- `VALID_TABLES = {"orders", "dividends", "transactions"}`. -/
def VALID_TABLES : List String := ["orders", "dividends", "transactions"]

/-- `VALID_DATE_COLUMNS` dict. -/
def VALID_DATE_COLUMNS : String → Option String := fun table =>
  if table == "orders" then some "date_created"
  else if table == "dividends" then some "paid_on"
  else if table == "transactions" then some "datetime"
  else none

/-- `_get_newest_record_date`, with an execution trace.  `columnDates`
abstracts the non-NULL values of the date column for this account. -/
def get_newest_record_date (table date_column : String) (columnDates : List Int) :
    Except String (Option Int) × List String :=
  if !(VALID_TABLES.contains table) then
    (.error ("Invalid table: " ++ table), [])
  else if VALID_DATE_COLUMNS table ≠ some date_column then
    (.error ("Invalid date_column for " ++ table ++ ": " ++ date_column), [])
  else
    (.ok columnDates.max?,
     ["SELECT MAX(" ++ date_column ++ ") as newest FROM " ++ table
       ++ " WHERE account_id = ?"])

/-- `DataCoverage` dataclass. -/
structure DataCoverage where
  count : Nat
  oldest_date : Option Int
  newest_date : Option Int
deriving Repr, DecidableEq

/-- `_get_data_coverage`, with an execution trace. `columnDates` lists
the date column over this account's rows (NULLs included: `COUNT(*)`
counts them, `MIN`/`MAX` ignore them). -/
def get_data_coverage (table date_column : String) (columnDates : List (Option Int)) :
    Except String DataCoverage × List String :=
  if !(VALID_TABLES.contains table) then
    (.error ("Invalid table: " ++ table), [])
  else if VALID_DATE_COLUMNS table ≠ some date_column then
    (.error ("Invalid date_column for " ++ table ++ ": " ++ date_column), [])
  else
    let dates := columnDates.filterMap id
    let cov :=
      if 0 < columnDates.length then
        { count := columnDates.length, oldest_date := dates.min?,
          newest_date := dates.max? : DataCoverage }
      else { count := 0, oldest_date := none, newest_date := none }
    (.ok cov,
     ["SELECT COUNT(*) as count, MIN(" ++ date_column ++ ") as oldest, MAX("
       ++ date_column ++ ") as newest FROM " ++ table ++ " WHERE account_id = ?"])

/-! ## Theorems -/

/-- C10: for every endpoint and rate-limiter state at one instant, the
boolean gate and the wait computation agree: `can_make_request` is true
iff `get_wait_time` is 0, despite testing the remaining-quota and
reset-time conditions in opposite orders. -/
theorem can_make_request_iff_zero_wait (rl : RateLimiterState) (endpoint : String)
    (now : Int) :
    can_make_request rl endpoint now = true ↔ get_wait_time rl endpoint now = 0 := by
  unfold can_make_request get_wait_time
  cases lookupEndpoint rl endpoint with
  | none => simp
  | some limit_info =>
    by_cases hr : limit_info.reset_time ≤ now <;>
      by_cases hm : 0 < limit_info.remaining <;>
        (simp [hr, hm]; all_goals omega)

/-- C7: `can_make_request` is true for an unknown endpoint, true once
the reset time has passed, and otherwise decides `remaining > 0`;
`get_wait_time` is 0 whenever `can_make_request` is true and otherwise
is `reset_time - now`; in particular a state with `limit=1, remaining=0,
reset=now+30` gives `can_make_request = false` and `get_wait_time = 30`,
and once the reset time has passed `can_make_request = true`. -/
theorem rate_limiter_decision_functions (rl : RateLimiterState) (endpoint : String)
    (now : Int) :
    (lookupEndpoint rl endpoint = none → can_make_request rl endpoint now = true) ∧
    (∀ li, lookupEndpoint rl endpoint = some li →
      (li.reset_time ≤ now → can_make_request rl endpoint now = true) ∧
      (now < li.reset_time →
        (can_make_request rl endpoint now = true ↔ 0 < li.remaining))) ∧
    (can_make_request rl endpoint now = true → get_wait_time rl endpoint now = 0) ∧
    (∀ li, lookupEndpoint rl endpoint = some li →
      can_make_request rl endpoint now = false →
      get_wait_time rl endpoint now = li.reset_time - now) ∧
    (∀ li, lookupEndpoint rl endpoint = some li →
      li.limit = 1 → li.remaining = 0 → li.reset_time = now + 30 →
      can_make_request rl endpoint now = false ∧
      get_wait_time rl endpoint now = 30 ∧
      ∀ later, li.reset_time ≤ later → can_make_request rl endpoint later = true) := by
  refine ⟨?_, ?_, ?_, ?_, ?_⟩
  · intro h; simp [can_make_request, h]
  · intro li h
    constructor
    · intro hr; simp [can_make_request, h, hr]
    · intro hr
      have hr' : ¬li.reset_time ≤ now := by omega
      simp [can_make_request, h, hr']
  · intro h
    unfold can_make_request at h
    unfold get_wait_time
    cases hl : lookupEndpoint rl endpoint with
    | none => simp
    | some li =>
      rw [hl] at h
      by_cases hr : li.reset_time ≤ now <;> by_cases hm : 0 < li.remaining <;>
        simp [hr, hm] at h ⊢
  · intro li h hfalse
    unfold can_make_request at hfalse
    unfold get_wait_time
    rw [h] at hfalse ⊢
    by_cases hr : li.reset_time ≤ now
    · simp [hr] at hfalse
    · by_cases hm : 0 < li.remaining
      · simp [hr, hm] at hfalse
      · simp [hr, hm]
  · intro li h _ hrem hreset
    refine ⟨?_, ?_, ?_⟩
    · unfold can_make_request
      rw [h]
      have hr : ¬li.reset_time ≤ now := by omega
      simp [hr, hrem]
    · unfold get_wait_time
      rw [h]
      have hr : ¬li.reset_time ≤ now := by omega
      simp [hr, hrem]
      omega
    · intro later hlater
      unfold can_make_request
      rw [h]
      simp [hlater]

/-- C7 witness: state `limit=1, remaining=0, reset=130` at `now=100`
(reset 30 seconds away): the gate refuses, the wait is 30 seconds, and
at `now=130` the gate allows again. -/
theorem rate_limiter_decision_functions_witness :
    can_make_request [("e", EndpointLimit.mk 1 0 130)] "e" 100 = false ∧
    get_wait_time [("e", EndpointLimit.mk 1 0 130)] "e" 100 = 30 ∧
    can_make_request [("e", EndpointLimit.mk 1 0 130)] "e" 130 = true := by
  have h := rate_limiter_decision_functions [("e", EndpointLimit.mk 1 0 130)] "e" 100
  have hli : lookupEndpoint [("e", EndpointLimit.mk 1 0 130)] "e"
      = some (EndpointLimit.mk 1 0 130) := rfl
  obtain ⟨ha, hb, hc⟩ := h.2.2.2.2 _ hli rfl rfl (by norm_num)
  exact ⟨ha, hb, hc 130 (by norm_num)⟩

/-- C3: the freshness gate: an omitted `max_age_minutes` behaves as the
configured default; `0` is always stale; `-1` is always fresh regardless
of the recorded sync; otherwise fresh iff `now - last_sync` is strictly
below the threshold; and with no recorded metadata (outside the forced
`-1` case) the cache is not fresh. -/
theorem freshness_gate_cases (cfg : Int) (metadata : Option SyncMetadata) (now : Int) :
    (is_cache_fresh true cfg metadata now none =
      is_cache_fresh true cfg metadata now (some cfg)) ∧
    (is_cache_fresh true cfg metadata now (some 0) = false) ∧
    (is_cache_fresh true cfg metadata now (some (-1)) = true) ∧
    (∀ maxAge last_sync rc, maxAge ≠ 0 → maxAge ≠ -1 →
      metadata = some { last_sync := some last_sync, record_count := rc } →
      (is_cache_fresh true cfg metadata now (some maxAge) = true ↔
        now - last_sync < 60 * maxAge)) ∧
    (∀ maxAge, maxAge ≠ -1 → metadata = none →
      is_cache_fresh true cfg metadata now (some maxAge) = false) := by
  refine ⟨rfl, ?_, ?_, ?_, ?_⟩
  · simp [is_cache_fresh]
  · simp [is_cache_fresh]
  · intro maxAge last_sync rc h0 h1 hmd
    subst hmd
    simp [is_cache_fresh, h0, h1]
  · intro maxAge h1 hmd
    subst hmd
    by_cases h0 : maxAge = 0 <;> simp [is_cache_fresh, h0, h1]

/-- C3 witness: with the configured default 60, a cache synced 61
minutes ago is stale and one synced 59 minutes ago is fresh; `0` forces
stale; `-1` forces fresh even with no metadata at all. -/
theorem freshness_gate_cases_witness :
    is_cache_fresh true 60 (some { last_sync := some 6340, record_count := 5 })
      10000 (some 60) = false ∧
    is_cache_fresh true 60 (some { last_sync := some 6460, record_count := 5 })
      10000 (some 60) = true ∧
    is_cache_fresh true 60 (some { last_sync := some 6460, record_count := 5 })
      10000 (some 0) = false ∧
    is_cache_fresh true 60 none 10000 (some (-1)) = true := by
  have h1 := freshness_gate_cases 60
    (some { last_sync := some 6340, record_count := 5 }) 10000
  have h2 := freshness_gate_cases 60
    (some { last_sync := some 6460, record_count := 5 }) 10000
  have h3 := freshness_gate_cases 60 none 10000
  refine ⟨?_, ?_, h2.2.1, h3.2.2.1⟩
  · have hiff := h1.2.2.2.1 60 6340 5 (by norm_num) (by norm_num) rfl
    have hne : ¬is_cache_fresh true 60
        (some { last_sync := some 6340, record_count := 5 }) 10000 (some 60) = true := by
      rw [hiff]; norm_num
    simpa using hne
  · exact (h2.2.2.2.1 60 6460 5 (by norm_num) (by norm_num) rfl).mpr (by norm_num)

/-- C8: for any table name outside the allow-list, or any date column
not matching the fixed column of a valid table, both the newest-record
-date and the data-coverage operations return the whitelist error
(the spec's PersistenceError, a `ValueError` in the code) and execute no
SQL at all — the trace of queries is empty, whatever the stored data. -/
theorem table_allow_list_fails_closed (table date_column : String)
    (newestDates : List Int) (coverageDates : List (Option Int))
    (hbad : table ∉ VALID_TABLES ∨ VALID_DATE_COLUMNS table ≠ some date_column) :
    (∃ e, (get_newest_record_date table date_column newestDates).1 = .error e) ∧
    (get_newest_record_date table date_column newestDates).2 = [] ∧
    (∃ e, (get_data_coverage table date_column coverageDates).1 = .error e) ∧
    (get_data_coverage table date_column coverageDates).2 = [] := by
  cases hbad with
  | inl h =>
    refine ⟨⟨"Invalid table: " ++ table, ?_⟩, ?_, ⟨"Invalid table: " ++ table, ?_⟩, ?_⟩ <;>
      simp [get_newest_record_date, get_data_coverage, h]
  | inr h =>
    by_cases ht : table ∈ VALID_TABLES
    · refine ⟨⟨"Invalid date_column for " ++ table ++ ": " ++ date_column, ?_⟩, ?_,
        ⟨"Invalid date_column for " ++ table ++ ": " ++ date_column, ?_⟩, ?_⟩ <;>
        simp [get_newest_record_date, get_data_coverage, ht, h]
    · refine ⟨⟨"Invalid table: " ++ table, ?_⟩, ?_, ⟨"Invalid table: " ++ table, ?_⟩, ?_⟩ <;>
        simp [get_newest_record_date, get_data_coverage, ht]

/-- C8 witness: the table `users` (never allow-listed) with a populated
column: both operations error out with an empty query trace. -/
theorem table_allow_list_fails_closed_witness :
    ("users" ∉ VALID_TABLES ∨ VALID_DATE_COLUMNS "users" ≠ some "datetime") ∧
    ((∃ e, (get_newest_record_date "users" "datetime" [5, 7]).1 = .error e) ∧
     (get_newest_record_date "users" "datetime" [5, 7]).2 = [] ∧
     (∃ e, (get_data_coverage "users" "datetime" [some 5, none]).1 = .error e) ∧
     (get_data_coverage "users" "datetime" [some 5, none]).2 = []) :=
  ⟨Or.inl (by decide),
   table_allow_list_fails_closed "users" "datetime" [5, 7] [some 5, none]
     (Or.inl (by decide))⟩

/-- `with_retry` re-raises after the retry budget is spent: running
`withRetryGo` from attempt `a` against `k + 1` consecutive raises of a
retryable error, with exactly `k` retries left, re-raises that error
after `max_retries + 1` total invocations. -/
theorem withRetryGo_exhausts {α : Type} (R : List Nat) (s : Nat) (hs : s ∈ R)
    (m : Nat) :
    ∀ (k a : Nat), a + k = m →
      withRetryGo m R a (List.replicate (k + 1) (CallOutcome.httpStatusError s))
        = (.raised (.httpStatusError s) (m + 1) : RetryResult α) := by
  intro k
  induction k with
  | zero =>
    intro a ha
    have haa : a = m := by omega
    subst haa
    have hnot : ¬s ∉ R := by simp [hs]
    have hlt : ¬a < a := by omega
    simp only [List.replicate, withRetryGo]
    rw [if_neg hnot, if_neg hlt]
  | succ k ih =>
    intro a ha
    have hnot : ¬s ∉ R := by simp [hs]
    have hlt : a < m := by omega
    have hrec := ih (a + 1) (by omega)
    rw [List.replicate_succ]
    simp only [withRetryGo]
    rw [if_neg hnot, if_pos hlt]
    exact hrec

/-- C6: the retry wrapper retries only transport connect/timeout errors
and HTTP statuses in {408, 429, 500, 502, 503, 504}: any other HTTP
status error is re-raised on the first occurrence after exactly one
invocation; a retryable status raised on every attempt is re-raised
after `max_retries + 1` invocations; and with `max_retries ≥ 2` a call
failing with 500 twice and then succeeding is invoked exactly 3 times
and its success value is returned (400 in particular is non-retryable). -/
theorem retry_classification_and_counts {α : Type} :
    (∀ (s : Nat) (rest : List (CallOutcome α)) (m : Nat),
      s ∉ RETRYABLE_STATUS_CODES →
      with_retry m (CallOutcome.httpStatusError s :: rest)
        = .raised (.httpStatusError s) 1) ∧
    (∀ (s m : Nat), s ∈ RETRYABLE_STATUS_CODES →
      with_retry m (List.replicate (m + 1) (CallOutcome.httpStatusError s))
        = (.raised (.httpStatusError s) (m + 1) : RetryResult α)) ∧
    (∀ (m : Nat) (v : α), 2 ≤ m →
      with_retry m [CallOutcome.httpStatusError 500, CallOutcome.httpStatusError 500,
        CallOutcome.success v] = .ok v 3) ∧
    (400 : Nat) ∉ RETRYABLE_STATUS_CODES := by
  refine ⟨?_, ?_, ?_, by decide⟩
  · intro s rest m hns
    simp [with_retry, withRetryGo, hns]
  · intro s m hs
    exact withRetryGo_exhausts RETRYABLE_STATUS_CODES s hs m m 0 (by omega)
  · intro m v hm
    have h500 : ¬(500 : Nat) ∉ RETRYABLE_STATUS_CODES := by decide
    have h0 : 0 < m := by omega
    have h1 : 1 < m := by omega
    simp [with_retry, withRetryGo, h500, h0, h1]

/-- C6 witness: with `max_retries = 3`, two 500s then a success take
exactly 3 invocations and return the value; a 400 is raised after one
invocation; 503 on every attempt is re-raised after 4 invocations. -/
theorem retry_classification_and_counts_witness :
    with_retry 3 [CallOutcome.httpStatusError 500, CallOutcome.httpStatusError 500,
      CallOutcome.success (37 : Nat)] = .ok 37 3 ∧
    with_retry 3 [CallOutcome.httpStatusError 400, CallOutcome.success (37 : Nat)]
      = .raised (.httpStatusError 400) 1 ∧
    with_retry 3 (List.replicate 4 (CallOutcome.httpStatusError 503))
      = (.raised (.httpStatusError 503) 4 : RetryResult Nat) := by
  have h := retry_classification_and_counts (α := Nat)
  exact ⟨h.2.2.1 3 37 (by norm_num),
    h.1 400 [CallOutcome.success 37] 3 (by decide),
    h.2.1 503 3 (by decide)⟩

/-- C1: terminal-order immutability: when the stored row for an order
id has a status in {FILLED, CANCELLED, REJECTED}, upserting an incoming
record with that id leaves the whole table (hence every stored field of
that row) unchanged — the incoming record is discarded unconditionally —
and the upsert's `inserted` count, which `sync_orders` reports as
`records_added`, stays 0. -/
theorem terminal_order_upsert_immutable (account_id : Int) (store : List OrderRow)
    (o : HistoricalOrder) (oid : Int) (st : String)
    (hid : o.id = some oid)
    (hsel : selectOrderStatus store oid account_id = some (some st))
    (hterm : st ∈ IMMUTABLE_ORDER_STATUSES) :
    upsert_orders account_id store [o] = (store, 0) := by
  have himm : statusIsImmutable (some st) = true := by
    simp [statusIsImmutable, hterm]
  simp [upsert_orders, upsertOrdersStep, hid, hsel, himm]

/-- An already-stored FILLED order at fill price 150; the same id
arrives again as FILLED with fill price 999.99. -/
def storedFilledOrder : HistoricalOrder :=
  { id := some 1
    order := some
      { id := some 1
        ticker := some "AAPL_US_EQ"
        type := some "MARKET"
        status := some "FILLED"
        initiatedFrom := some "API"
        quantity := some 10
        filledQuantity := some 10
        limitPrice := none
        stopPrice := none
        createdAt := some 1700000000 }
    fill := some
      { id := some 1001
        price := some 150
        tradingMethod := none
        filledAt := some 1700000005
        walletImpact := none } }

/-- The conflicting upstream record for the same order id. -/
def incomingFilledOrder : HistoricalOrder :=
  { id := some 1
    order := some
      { id := some 1
        ticker := some "AAPL_US_EQ"
        type := some "MARKET"
        status := some "FILLED"
        initiatedFrom := some "API"
        quantity := some 10
        filledQuantity := some 10
        limitPrice := none
        stopPrice := none
        createdAt := some 1700000000 }
    fill := some
      { id := some 1001
        price := some (99999/100 : Rat)
        tradingMethod := none
        filledAt := some 1700000005
        walletImpact := none } }

/-- C1 witness: the stored FILLED row keeps its price (the table is
untouched) and 0 records are added when the 999.99-priced copy arrives. -/
theorem terminal_order_upsert_immutable_witness :
    incomingFilledOrder.id = some 1 ∧
    selectOrderStatus [orderRowValues 7 storedFilledOrder] 1 7 = some (some "FILLED") ∧
    "FILLED" ∈ IMMUTABLE_ORDER_STATUSES ∧
    upsert_orders 7 [orderRowValues 7 storedFilledOrder] [incomingFilledOrder] =
      ([orderRowValues 7 storedFilledOrder], 0) :=
  ⟨by decide, by decide, by decide,
   terminal_order_upsert_immutable 7 [orderRowValues 7 storedFilledOrder]
     incomingFilledOrder 1 "FILLED" (by decide) (by decide) (by decide)⟩

/-- A fold that threads a table and a counter adds at most 1 to the
counter per list element. -/
theorem foldlCountLe {σ β : Type} (step : σ × Nat → β → σ × Nat)
    (hstep : ∀ acc b, (step acc b).2 ≤ acc.2 + 1) :
    ∀ (l : List β) (acc : σ × Nat), (l.foldl step acc).2 ≤ acc.2 + l.length := by
  intro l
  induction l with
  | nil => intro acc; simp
  | cons b bs ih =>
    intro acc
    simp only [List.foldl_cons, List.length_cons]
    have h1 := hstep acc b
    have h2 := ih (step acc b)
    omega

/-- `_upsert_orders` counts each order at most once. -/
theorem upsertOrdersStep_le (account_id : Int) :
    ∀ (acc : List OrderRow × Nat) (o : HistoricalOrder),
      (upsertOrdersStep account_id acc o).2 ≤ acc.2 + 1 := by
  intro acc o
  cases ho : o.id with
  | none => simp [upsertOrdersStep, ho]
  | some oid =>
    cases hs : selectOrderStatus acc.1 oid account_id with
    | none => simp [upsertOrdersStep, ho, hs]
    | some st =>
      by_cases h : statusIsImmutable st = true
      · simp [upsertOrdersStep, ho, hs, h]
      · simp [upsertOrdersStep, ho, hs, h]

/-- `_upsert_dividends` counts each dividend at most once. -/
theorem upsertDividendsStep_le (account_id : Int) :
    ∀ (acc : List DividendRow × Nat) (d : HistoryDividendItem),
      (upsertDividendsStep account_id acc d).2 ≤ acc.2 + 1 := by
  intro acc d
  cases ho : d.reference with
  | none => simp [upsertDividendsStep, ho]
  | some r =>
    by_cases h : r.isEmpty
    · simp [upsertDividendsStep, ho, h]
    · simp [upsertDividendsStep, ho, h]

/-- `_upsert_transactions` counts each transaction at most once. -/
theorem upsertTransactionsStep_le (account_id : Int) :
    ∀ (acc : List TransactionRow × Nat) (t : HistoryTransactionItem),
      (upsertTransactionsStep account_id acc t).2 ≤ acc.2 + 1 := by
  intro acc t
  cases ho : t.reference with
  | none => simp [upsertTransactionsStep, ho]
  | some r =>
    by_cases h : r.isEmpty
    · simp [upsertTransactionsStep, ho, h]
    · simp [upsertTransactionsStep, ho, h]

/-- C9: every completed orders, dividends, or transactions sync reports
`records_added ≤ records_fetched`: each upsert increments the added
count at most once per fetched record and skips identifier-less records
and records whose cached status is terminal. -/
theorem records_added_le_records_fetched :
    (∀ (enabled : Bool) (account_id : Int) (store : List OrderRow) (now : Int)
        (responses : List (Except String OrderPage)),
      (sync_orders enabled account_id store now responses).result.records_added ≤
        (sync_orders enabled account_id store now responses).result.records_fetched) ∧
    (∀ (enabled : Bool) (account_id : Int) (store : List DividendRow) (now : Int)
        (incremental : Bool) (responses : List DividendPage),
      (sync_dividends enabled account_id store now incremental
          responses).result.records_added ≤
        (sync_dividends enabled account_id store now incremental
          responses).result.records_fetched) ∧
    (∀ (enabled : Bool) (account_id : Int) (store : List TransactionRow) (now : Int)
        (responses : List TransactionPage),
      (sync_transactions enabled account_id store now responses).result.records_added ≤
        (sync_transactions enabled account_id store now responses).result.records_fetched) := by
  refine ⟨?_, ?_, ?_⟩
  · intro enabled account_id store now responses
    cases enabled with
    | false => simp [sync_orders]
    | true =>
      have h := foldlCountLe (upsertOrdersStep account_id) (upsertOrdersStep_le account_id)
        (syncOrdersFetchLoop responses).1 (store, 0)
      simpa [sync_orders, upsert_orders] using h
  · intro enabled account_id store now incremental responses
    cases enabled with
    | false => simp [sync_dividends]
    | true =>
      cases hloop : syncDividendsFetchLoop
          (if incremental then newestDividendPaidOn store account_id else none)
          responses with
      | mk o n =>
        cases o with
        | none => simp [sync_dividends, hloop]
        | some l =>
          have h := foldlCountLe (upsertDividendsStep account_id)
            (upsertDividendsStep_le account_id) l (store, 0)
          simpa [sync_dividends, hloop, upsert_dividends] using h
  · intro enabled account_id store now responses
    cases enabled with
    | false => simp [sync_transactions]
    | true =>
      cases hloop : syncTransactionsFetchLoop responses with
      | mk o n =>
        cases o with
        | none => simp [sync_transactions, hloop]
        | some l =>
          have h := foldlCountLe (upsertTransactionsStep account_id)
            (upsertTransactionsStep_le account_id) l (store, 0)
          simpa [sync_transactions, hloop, upsert_transactions] using h

/-- A minimal order used to populate scripted pages. -/
def bareOrder (i : Int) : HistoricalOrder := { id := some i, order := none, fill := none }

/-- A full page at the cap size 8, with a next cursor. -/
def fullPage8 : OrderPage :=
  { items := [bareOrder 0, bareOrder 1, bareOrder 2, bareOrder 3, bareOrder 4,
      bareOrder 5, bareOrder 6, bareOrder 7]
    nextPagePath := some (some 12345) }

/-- A partial page (3 < 8 items) that still carries a next cursor. -/
def shortPageWithCursor : OrderPage :=
  { items := [bareOrder 8, bareOrder 9, bareOrder 10]
    nextPagePath := some (some 678) }

/-- An empty final page. -/
def emptyLastPage : OrderPage := { items := [], nextPagePath := none }

/-- C4 counterexample: the loop does not stop at a page shorter than
the cap — a full page of the cap size 8 followed by a partial page of
3 < 8 items that still carries a next cursor yields 3 fetch calls, not
the 2 the claim requires. -/
theorem orders_pagination_short_page_cex :
    fullPage8.items.length = 8 ∧
    shortPageWithCursor.items.length = 3 ∧
    shortPageWithCursor.items.length < 8 ∧
    (syncOrdersFetchLoop
      [.ok fullPage8, .ok shortPageWithCursor, .ok emptyLastPage]).2.2 = 3 ∧
    (syncOrdersFetchLoop
      [.ok fullPage8, .ok shortPageWithCursor, .ok emptyLastPage]).2.2 ≠ 2 := by
  refine ⟨by decide, by decide, by decide, by decide, by decide⟩

/-- C4 (amended): the orders fetch loop stops exactly when the response
carries no next cursor (no `nextPagePath`, or one without a `cursor`
parameter), when a fetched page is empty, or when a fetch raises; a
nonempty page with a next cursor always leads to a further fetch, even
when shorter than the cap.  A full page of the cap size 8 followed by a
partial page with no `nextPagePath` causes exactly 2 fetch calls, and
`records_fetched` equals the sum of the two page sizes. -/
theorem orders_pagination_loop_stop_conditions :
    (∀ (page : OrderPage) (c : Int) (rest : List (Except String OrderPage)),
      page.items ≠ [] → page.nextPagePath = some (some c) →
      syncOrdersFetchLoop (.ok page :: rest) =
        (page.items ++ (syncOrdersFetchLoop rest).1, (syncOrdersFetchLoop rest).2.1,
          (syncOrdersFetchLoop rest).2.2 + 1)) ∧
    (∀ (e : String) (rest : List (Except String OrderPage)),
      syncOrdersFetchLoop (.error e :: rest) =
        ([], some ("Pagination stopped: " ++ e), 1)) ∧
    (∀ (page : OrderPage) (rest : List (Except String OrderPage)),
      page.items = [] → syncOrdersFetchLoop (.ok page :: rest) = ([], none, 1)) ∧
    (∀ (page : OrderPage) (rest : List (Except String OrderPage)),
      page.items ≠ [] → (page.nextPagePath = none ∨ page.nextPagePath = some none) →
      syncOrdersFetchLoop (.ok page :: rest) = (page.items, none, 1)) ∧
    (∀ (account_id : Int) (store : List OrderRow) (now : Int) (p1 p2 : OrderPage)
        (c : Int),
      p1.items.length = 8 → p1.nextPagePath = some (some c) →
      p2.items ≠ [] → p2.items.length < 8 → p2.nextPagePath = none →
      (sync_orders true account_id store now [.ok p1, .ok p2]).fetchCalls = 2 ∧
      (sync_orders true account_id store now [.ok p1, .ok p2]).result.records_fetched =
        p1.items.length + p2.items.length) := by
  refine ⟨?_, ?_, ?_, ?_, ?_⟩
  · intro page c rest hne hpath
    obtain ⟨items, path⟩ := page
    simp only at hne hpath
    subst hpath
    cases items with
    | nil => exact absurd rfl hne
    | cons a as => simp [syncOrdersFetchLoop]
  · intro e rest
    simp [syncOrdersFetchLoop]
  · intro page rest hempty
    obtain ⟨items, path⟩ := page
    simp only at hempty
    subst hempty
    simp [syncOrdersFetchLoop]
  · intro page rest hne hpath
    obtain ⟨items, path⟩ := page
    simp only at hne hpath
    cases items with
    | nil => exact absurd rfl hne
    | cons a as =>
      cases hpath with
      | inl h => subst h; simp [syncOrdersFetchLoop]
      | inr h => subst h; simp [syncOrdersFetchLoop]
  · intro account_id store now p1 p2 c h1len hp1 h2ne h2len hp2
    obtain ⟨items1, path1⟩ := p1
    obtain ⟨items2, path2⟩ := p2
    simp only at h1len hp1 h2ne h2len hp2 ⊢
    subst hp1
    subst hp2
    cases items1 with
    | nil => simp at h1len
    | cons a as =>
      cases items2 with
      | nil => exact absurd rfl h2ne
      | cons b bs =>
        constructor
        · simp [sync_orders, syncOrdersFetchLoop]
        · simp [sync_orders, syncOrdersFetchLoop]
          omega

/-- C4 witness: the cap-sized page followed by a cursor-less partial
page: 2 fetch calls and 9 = 8 + 1 records fetched. -/
theorem orders_pagination_loop_stop_conditions_witness :
    fullPage8.items.length = 8 ∧
    (sync_orders true 1 [] 0
      [.ok fullPage8, .ok { items := [bareOrder 8], nextPagePath := none }]).fetchCalls
      = 2 ∧
    (sync_orders true 1 [] 0
      [.ok fullPage8,
        .ok { items := [bareOrder 8], nextPagePath := none }]).result.records_fetched
      = 9 := by
  have h := orders_pagination_loop_stop_conditions.2.2.2.2 1 [] 0 fullPage8
    { items := [bareOrder 8], nextPagePath := none } 12345
    (by decide) (by decide) (by decide) (by decide) (by decide)
  exact ⟨by decide, h.1, by rw [h.2]; decide⟩

/-- The orders fetch loop over `n` well-formed pages (nonempty, each
with a next cursor) followed by a raising fetch: all `n` pages are
collected, the error is recorded, and `n + 1` calls were made. -/
theorem syncOrdersFetchLoop_prefix_raise (e : String) :
    ∀ (pages : List OrderPage),
      (∀ p ∈ pages, p.items ≠ [] ∧ ∃ c, p.nextPagePath = some (some c)) →
      syncOrdersFetchLoop (pages.map Except.ok ++ [Except.error e]) =
        ((pages.map (fun p => p.items)).flatten,
          some ("Pagination stopped: " ++ e), pages.length + 1) := by
  intro pages
  induction pages with
  | nil => intro _; simp [syncOrdersFetchLoop]
  | cons p ps ih =>
    intro hgood
    obtain ⟨hne, c, hpath⟩ := hgood p (by simp)
    have hrest := ih (fun q hq => hgood q (by simp [hq]))
    obtain ⟨items, path⟩ := p
    simp only at hne hpath
    subst hpath
    cases items with
    | nil => exact absurd rfl hne
    | cons a as =>
      simp [syncOrdersFetchLoop, hrest]

/-- C5: when the `n`-th fetch of the orders loop raises, the pages
fetched by the first `n - 1` calls are still merged into the store via
`_upsert_orders`, the result's `error` carries the failure (it is not
re-raised), and `records_fetched` counts exactly the items of those
earlier pages. -/
theorem orders_partial_progress_on_fetch_failure (account_id : Int)
    (store : List OrderRow) (now : Int) (pages : List OrderPage) (e : String)
    (hgood : ∀ p ∈ pages, p.items ≠ [] ∧ ∃ c, p.nextPagePath = some (some c)) :
    sync_orders true account_id store now (pages.map Except.ok ++ [Except.error e]) =
      { store := (upsert_orders account_id store
          ((pages.map (fun p => p.items)).flatten)).1
        result :=
          { table := "orders"
            records_fetched := ((pages.map (fun p => p.items)).flatten).length
            records_added := (upsert_orders account_id store
              ((pages.map (fun p => p.items)).flatten)).2
            total_records := countOrders ((upsert_orders account_id store
              ((pages.map (fun p => p.items)).flatten)).1) account_id
            last_sync := now
            error := some ("Pagination stopped: " ++ e) }
        fetchCalls := pages.length + 1 } := by
  have h := syncOrdersFetchLoop_prefix_raise e pages hgood
  simp [sync_orders, h]

/-- A nonempty page carrying a next cursor, for the C5 scenario. -/
def goodPage1 : OrderPage := { items := [bareOrder 1], nextPagePath := some (some 5) }

/-- C5 witness: one good page then a raising fetch: the page's order is
merged (1 added, 1 total), the error is reported, 2 calls were made. -/
theorem orders_partial_progress_on_fetch_failure_witness :
    (∀ p ∈ [goodPage1], p.items ≠ [] ∧ ∃ c, p.nextPagePath = some (some c)) ∧
    sync_orders true 1 [] 0 [.ok goodPage1, .error "boom"] =
      { store := [orderRowValues 1 (bareOrder 1)]
        result :=
          { table := "orders"
            records_fetched := 1
            records_added := 1
            total_records := 1
            last_sync := 0
            error := some "Pagination stopped: boom" }
        fetchCalls := 2 } := by
  have hgood : ∀ p ∈ [goodPage1],
      p.items ≠ [] ∧ ∃ c, p.nextPagePath = some (some c) := by
    intro p hp
    simp only [List.mem_singleton] at hp
    subst hp
    exact ⟨by decide, 5, rfl⟩
  have h := orders_partial_progress_on_fetch_failure 1 [] 0 [goodPage1] "boom" hgood
  refine ⟨hgood, ?_⟩
  have hform : ([.ok goodPage1, .error "boom"] : List (Except String OrderPage)) =
      List.map Except.ok [goodPage1] ++ [Except.error "boom"] := rfl
  rw [hform, h]
  decide

/-- `INSERT OR REPLACE` of a dividend whose reference is not yet stored
appends a fresh row. -/
theorem insertOrReplaceDividend_not_present (store : List DividendRow)
    (row : DividendRow) (h : ∀ r ∈ store, r.reference ≠ row.reference) :
    insertOrReplaceDividend store row = store ++ [row] := by
  unfold insertOrReplaceDividend
  congr 1
  apply List.filter_eq_self.mpr
  intro r hr
  simpa using h r hr

/-- Row counting distributes over appended rows. -/
theorem countDividends_append (store rows : List DividendRow) (account_id : Int) :
    countDividends (store ++ rows) account_id =
      countDividends store account_id + countDividends rows account_id := by
  simp [countDividends, List.filter_append]

/-- C2: dividend incremental sync against cutoff `T` (the newest stored
`paid_on`): every fetched page is filtered keeping exactly the items
with `paid_on ≥ T` (datetime comparison on instants, not strings);
pagination stops right after the first page accepting fewer items than
it contained; and for a page with two items at `paid_on = T` and one
older, exactly the two `≥ T` items are kept and stored, no further page
is fetched, and the total record count increases by 2. -/
theorem dividends_incremental_cutoff (account_id : Int) (store : List DividendRow)
    (now T : Int) (hT : newestDividendPaidOn store account_id = some T) :
    (∀ (items : List HistoryDividendItem) (d : HistoryDividendItem),
      d ∈ items.filter (dividendAccepted T) ↔
        d ∈ items ∧ ∃ p, d.paidOn = some p ∧ T ≤ p) ∧
    (∀ (page : DividendPage) (rest : List DividendPage), page.items ≠ [] →
      (page.items.filter (dividendAccepted T)).length < page.items.length →
      syncDividendsFetchLoop (some T) (page :: rest) =
        (some (page.items.filter (dividendAccepted T)), 1)) ∧
    (∀ (d1 d2 d3 : HistoryDividendItem) (t3 : Int) (next : Option (Option Int))
        (rest : List DividendPage) (r1 r2 : String),
      d1.paidOn = some T → d2.paidOn = some T → d3.paidOn = some t3 → t3 < T →
      d1.reference = some r1 → d2.reference = some r2 →
      r1.isEmpty = false → r2.isEmpty = false → r1 ≠ r2 →
      (∀ r ∈ store, r.reference ≠ r1 ∧ r.reference ≠ r2) →
      sync_dividends true account_id store now true
          ({ items := [d1, d2, d3], nextPagePath := next } :: rest) =
        { store := store ++ [dividendRowValues account_id r1 d1,
            dividendRowValues account_id r2 d2]
          result :=
            { table := "dividends"
              records_fetched := 2
              records_added := 2
              total_records := countDividends store account_id + 2
              last_sync := now
              error := none }
          fetchCalls := 1 }) := by
  refine ⟨?_, ?_, ?_⟩
  · intro items d
    rw [List.mem_filter]
    constructor
    · rintro ⟨hmem, hacc⟩
      refine ⟨hmem, ?_⟩
      unfold dividendAccepted at hacc
      cases hp : d.paidOn with
      | none => rw [hp] at hacc; simp at hacc
      | some p =>
        rw [hp] at hacc
        simp only [decide_eq_true_eq] at hacc
        exact ⟨p, rfl, hacc⟩
    · rintro ⟨hmem, p, hp, hle⟩
      exact ⟨hmem, by simp [dividendAccepted, hp, hle]⟩
  · intro page rest hne hlt
    obtain ⟨items, next⟩ := page
    simp only at hne hlt ⊢
    cases items with
    | nil => exact absurd rfl hne
    | cons a as =>
      simp only [List.length_cons] at hlt
      simp [syncDividendsFetchLoop, hlt]
  · intro d1 d2 d3 t3 next rest r1 r2 h1 h2 h3 hlt3 hr1 hr2 hE1 hE2 hneq hnotin
    have hacc1 : dividendAccepted T d1 = true := by simp [dividendAccepted, h1]
    have hacc2 : dividendAccepted T d2 = true := by simp [dividendAccepted, h2]
    have hacc3 : dividendAccepted T d3 = false := by
      simp only [dividendAccepted, h3, decide_eq_false_iff_not]
      omega
    have hfilter : [d1, d2, d3].filter (dividendAccepted T) = [d1, d2] := by
      simp [List.filter, hacc1, hacc2, hacc3]
    have hloop : syncDividendsFetchLoop (some T)
        ({ items := [d1, d2, d3], nextPagePath := next } :: rest)
        = (some [d1, d2], 1) := by
      simp [syncDividendsFetchLoop, hfilter]
    have hs1 : insertOrReplaceDividend store (dividendRowValues account_id r1 d1) =
        store ++ [dividendRowValues account_id r1 d1] :=
      insertOrReplaceDividend_not_present _ _ (fun r hr => (hnotin r hr).1)
    have hs2 : insertOrReplaceDividend (store ++ [dividendRowValues account_id r1 d1])
        (dividendRowValues account_id r2 d2) =
        (store ++ [dividendRowValues account_id r1 d1]) ++
          [dividendRowValues account_id r2 d2] := by
      apply insertOrReplaceDividend_not_present
      intro r hr
      rcases List.mem_append.mp hr with hm | hm
      · exact (hnotin r hm).2
      · simp only [List.mem_singleton] at hm
        subst hm
        simpa [dividendRowValues] using hneq
    have hup : upsert_dividends account_id store [d1, d2] =
        (store ++ [dividendRowValues account_id r1 d1,
          dividendRowValues account_id r2 d2], 2) := by
      simp only [upsert_dividends, List.foldl_cons, List.foldl_nil,
        upsertDividendsStep, hr1, hr2, hE1, Bool.false_eq_true, if_false]
      rw [hs1]
      simp only [hE2, Bool.false_eq_true, if_false]
      rw [hs2]
      simp
    have hcount : countDividends (store ++ [dividendRowValues account_id r1 d1,
        dividendRowValues account_id r2 d2]) account_id =
        countDividends store account_id + 2 := by
      rw [countDividends_append]
      simp [countDividends, dividendRowValues]
    simp [sync_dividends, hT, hloop, hup, hcount]

/-- An upstream dividend item carrying only a reference and a pay date. -/
def bareDividend (r : Option String) (p : Option Int) : HistoryDividendItem :=
  { reference := r
    ticker := none
    amount := none
    amountInEuro := none
    grossAmountPerShare := none
    quantity := none
    type := none
    paidOn := p }

/-- A cache already holding one dividend paid at instant 100. -/
def divStore0 : List DividendRow :=
  [dividendRowValues 1 "old" (bareDividend (some "old") (some 100))]

/-- C2 witness: cutoff 100; a page with two items at 100 and one at 50,
with a next cursor and an older page behind it: both items at the
cutoff are stored, the older page is never fetched (1 call), and the
total grows from 1 to 3. -/
theorem dividends_incremental_cutoff_witness :
    newestDividendPaidOn divStore0 1 = some 100 ∧
    sync_dividends true 1 divStore0 5 true
        [{ items := [bareDividend (some "a") (some 100),
            bareDividend (some "b") (some 100), bareDividend (some "c") (some 50)]
           nextPagePath := some (some 7) },
         { items := [bareDividend (some "d") (some 40)], nextPagePath := none }] =
      { store := divStore0 ++ [dividendRowValues 1 "a" (bareDividend (some "a") (some 100)),
          dividendRowValues 1 "b" (bareDividend (some "b") (some 100))]
        result :=
          { table := "dividends"
            records_fetched := 2
            records_added := 2
            total_records := 3
            last_sync := 5
            error := none }
        fetchCalls := 1 } := by
  have h := (dividends_incremental_cutoff 1 divStore0 5 100 (by decide)).2.2
    (bareDividend (some "a") (some 100)) (bareDividend (some "b") (some 100))
    (bareDividend (some "c") (some 50)) 50 (some (some 7))
    [{ items := [bareDividend (some "d") (some 40)], nextPagePath := none }]
    "a" "b" rfl rfl rfl (by norm_num) rfl rfl (by decide) (by decide) (by decide)
    (by decide)
  refine ⟨by decide, ?_⟩
  rw [h]
  decide

end Trading212
